import Mathlib

/-!
Shallow embedding of the resilient crawl orchestrator of
`src/auction_scraper.py` (classes `ProxyRotator`, `PageScraper`,
`MachineryPeteScraper`), together with the instrumentation needed to settle
the claims about it: browser-session open/quit accounting, page-load logging,
the flush sequence written to the result store, and an explicit model of the
single non-reentrant pool lock.
-/

namespace AuctionScraper

/-- Raw records are opaque to the orchestration layer; we model one as a pair
of naturals (page number, index on the page) so that concrete runs are
decidable. -/
abbrev Rec := Nat × Nat

/-- Instrumentation events emitted by a `PageScraper`: a browser session is
opened (`webdriver.Chrome` created in `setup_driver`), a session is quit
(`driver.quit()`), a page is loaded (`driver.get(url)`), or the job sleeps the
randomized 2-5 second interval between retry attempts
(`time.sleep(random.uniform(2, 5))`). -/
inductive SEv where
  | openS (id : Nat)
  | quitS (id : Nat)
  | load (page : Nat)
  | sleepRetry
deriving DecidableEq, Repr

/-- World state threaded through every `PageScraper` step: a counter
allocating fresh browser-session ids and the event log. -/
structure SState where
  nextId : Nat
  log : List SEv
deriving DecidableEq, Repr

/-- Outcome of one `setup_driver` call in `PageScraper.setup_driver`
(lines 181-221): either the driver is created and the stealth commands
succeed (`ok`); or driver creation fails on both the ChromeDriverManager path
and the fallback, so no session is opened and the method raises
(`failNoOpen`); or the driver is created but a post-creation step
(`execute_cdp_cmd` / `execute_script`, lines 216-217) raises, so the method
raises with `self.driver` still holding the opened session (`failLeak`). -/
inductive SetupRes where
  | ok
  | failNoOpen
  | failLeak
deriving DecidableEq, Repr

/-- Outcome of `self.driver.get(url)` (line 258): success or an exception. -/
inductive NavRes where
  | ok
  | raise
deriving DecidableEq, Repr

/-- Outcome of the element wait (lines 261-268) plus the extraction loop
(lines 273-286): the wait times out (`TimeoutException`, caught and turned
into `return []`), it raises some other exception, or it yields listings
whose surviving extracted records are `recs` (per-item extraction failures
are caught and skipped inside the loop, so they only shrink `recs`). -/
inductive WaitRes where
  | timeout
  | raise
  | items (recs : List Rec)
deriving DecidableEq, Repr

/-- Environment oracle for a `PageScraper`: what each primitive step does,
as a function of the current world state and page. -/
structure Oracle where
  setupO : SState → SetupRes
  navO : SState → Nat → NavRes
  waitO : SState → Nat → WaitRes

/-- Append one event to the log. -/
def push (s : SState) (e : SEv) : SState :=
  { s with log := s.log ++ [e] }

/-- `PageScraper.setup_driver` (lines 181-221). Returns
(raised?, `self.driver` after the call, new state). On `ok` a fresh session
id is allocated and logged; on `failNoOpen` nothing was opened and the
method raises; on `failLeak` a session was opened, then the stealth commands
raised, so the method raises while `self.driver` holds the open session. -/
def setup_driver (o : Oracle) (s : SState) : Bool × Option Nat × SState :=
  match o.setupO s with
  | SetupRes.ok => (false, some s.nextId, { nextId := s.nextId + 1, log := s.log ++ [SEv.openS s.nextId] })
  | SetupRes.failNoOpen => (true, none, s)
  | SetupRes.failLeak => (true, some s.nextId, { nextId := s.nextId + 1, log := s.log ++ [SEv.openS s.nextId] })

/-- Quit the current driver if one is set (`driver.quit()` with the raised
exceptions swallowed, as in lines 295-299 and 308-314). -/
def quitDrv (drv : Option Nat) (s : SState) : SState :=
  match drv with
  | some d => push s (SEv.quitS d)
  | none => s

/-- `PageScraper.scrape_page` retry loop (lines 241-314), with
`fuel = max_retries - retry_count` remaining attempts. Each iteration:
re-create the driver if `self.driver` is `None` (line 248-249), navigate
(line 258), wait for listings (lines 261-268; a `TimeoutException` yields
`return []` with the `finally` block quitting the driver), extract and
return. Any exception is handled by the `except` block (lines 290-307):
increment `retry_count`, force-quit the session, sleep the randomized 2-5s
interval and retry, or return `[]` once the 3-attempt budget is exhausted.
The `finally` block (lines 308-314) quits the driver on every return path. -/
def scrape_page_go (o : Oracle) (p : Nat) : Nat → Option Nat → SState → List Rec × SState
  | 0, _, s => ([], s)
  | fuel + 1, drv, s =>
    let t := match drv with
      | none => setup_driver o s
      | some d => (false, some d, s)
    match t with
    | (true, drv1, s1) =>
      let s2 := quitDrv drv1 s1
      if 0 < fuel then scrape_page_go o p fuel none (push s2 SEv.sleepRetry)
      else ([], s2)
    | (false, drv1, s1) =>
      let s2 := push s1 (SEv.load p)
      match o.navO s2 p with
      | NavRes.raise =>
        let s3 := quitDrv drv1 s2
        if 0 < fuel then scrape_page_go o p fuel none (push s3 SEv.sleepRetry)
        else ([], s3)
      | NavRes.ok =>
        match o.waitO s2 p with
        | WaitRes.timeout => ([], quitDrv drv1 s2)
        | WaitRes.raise =>
          let s3 := quitDrv drv1 s2
          if 0 < fuel then scrape_page_go o p fuel none (push s3 SEv.sleepRetry)
          else ([], s3)
        | WaitRes.items recs => (recs, quitDrv drv1 s2)

/-- `PageScraper.scrape_page` with the source's `max_retries = 3`. -/
def scrape_page (o : Oracle) (p : Nat) (drv : Option Nat) (s : SState) : List Rec × SState :=
  scrape_page_go o p 3 drv s

/-- `MachineryPeteScraper._scrape_single_page` (lines 578-581): construct a
`PageScraper` (whose `__init__` calls `setup_driver` and lets any exception
propagate) and call `scrape_page`. A constructor failure escapes as
`Except.error`. -/
def scrape_single_page (o : Oracle) (p : Nat) (s : SState) : Except Unit (List Rec) × SState :=
  match setup_driver o s with
  | (true, _, s') => (Except.error (), s')
  | (false, drv, s') =>
    let r := scrape_page o p drv s'
    (Except.ok r.1, r.2)

/-- The result store (`auction_results.json` / `auction_results.csv`), with a
write counter instrumenting how many file writes `save_results` performed. -/
structure Store where
  jsonFile : Option (List Rec)
  csvFile : Option (List Rec)
  writes : Nat
deriving DecidableEq, Repr

/-- `MachineryPeteScraper.save_results` (lines 583-611): with an empty
record set it logs and returns without touching any file; otherwise it
rewrites both output files whole from the in-memory set. -/
def save_results (results : List Rec) (st : Store) : Store :=
  if results = [] then st
  else { jsonFile := some results, csvFile := some results, writes := st.writes + 2 }

/-- Apply a sequence of `save_results` calls in order. -/
def applyFlushes (st0 : Store) (fls : List (List Rec)) : Store :=
  fls.foldl (fun st r => save_results r st) st0

/-- The orchestrator's per-batch collection loop (lines 534-545): for each
completed future, extend `all_results` when the page returned records, append
the page to `failed_pages` when it returned an empty list, and also append it
when the future raised. The job runs against a world `W` (for a
`PageScraper` job, the `SState`). -/
def collect {W : Type} (job : Nat → W → Except Unit (List Rec) × W) :
    List Nat → List Rec → List Nat → W → List Rec × List Nat × W
  | [], acc, failed, w => (acc, failed, w)
  | p :: ps, acc, failed, w =>
    match job p w with
    | (Except.ok rs, w') =>
      if rs = [] then collect job ps acc (failed ++ [p]) w'
      else collect job ps (acc ++ rs) failed w'
    | (Except.error _, w') => collect job ps acc (failed ++ [p]) w'

/-- The inclusive page range `[s, e]`. -/
def pageRange (s e : Nat) : List Nat := List.range' s (e + 1 - s)

/-- Batch starts (`range(start_page, end_page + 1, batch_size)`, line 524)
with each batch `range(batch_start, min(batch_start + batch_size - 1,
end_page) + 1)` (lines 525, 531); `fuel` bounds the loop for termination and
is instantiated with `e + 1 - s`, which suffices whenever `1 ≤ B`. -/
def batchesGo (B : Nat) : Nat → Nat → Nat → List (List Nat)
  | 0, _, _ => []
  | fuel + 1, s, e =>
    if s ≤ e then pageRange s (min (s + B - 1) e) :: batchesGo B fuel (s + B) e
    else []

/-- The partition of `[s, e]` into batches of size `B` used by
`scrape_pages` (the source fixes `batch_size = 2`, line 522). -/
def batches (B s e : Nat) : List (List Nat) := batchesGo B (e + 1 - s) s e

/-- The main batch loop of `scrape_pages` (lines 524-553): process each
batch through the worker pool (`sched` gives the order in which the batch's
futures complete), then flush the full accumulated set to the store when it
is non-empty (lines 547-550). Returns ((all_results, failed_pages, the list
of `save_results` arguments so far), job world). -/
def runBatches {W : Type} (job : Nat → W → Except Unit (List Rec) × W)
    (sched : List Nat → List Nat) :
    List (List Nat) → List Rec → List Nat → List (List Rec) → W →
    (List Rec × List Nat × List (List Rec)) × W
  | [], acc, failed, fls, w => ((acc, failed, fls), w)
  | b :: bs, acc, failed, fls, w =>
    let c := collect job (sched b) acc failed w
    let acc' := c.1
    let failed' := c.2.1
    let w' := c.2.2
    let fls' := if acc' = [] then fls else fls ++ [acc']
    runBatches job sched bs acc' failed' fls' w'

/-- The serial retry pass over `failed_pages` (lines 556-566): one fresh job
per failed page, extend `all_results` on a non-empty result, swallow any
exception; `failed_pages` itself is never modified. -/
def retryPass {W : Type} (job : Nat → W → Except Unit (List Rec) × W) :
    List Nat → List Rec → W → List Rec × W
  | [], acc, w => (acc, w)
  | p :: ps, acc, w =>
    match job p w with
    | (Except.ok rs, w') => retryPass job ps (if rs = [] then acc else acc ++ rs) w'
    | (Except.error _, w') => retryPass job ps acc w'

/-- Observable outcome of one `scrape_pages` invocation. `flushes` is the
sequence of record sets handed to `save_results`, in call order; `raised`
records whether the run-fatal `except` path (lines 574-576) re-raised. -/
structure OrchResult where
  allResults : List Rec
  failed : List Nat
  flushes : List (List Rec)
  store : Store
  raised : Bool
deriving DecidableEq, Repr

/-- `MachineryPeteScraper.scrape_pages` (lines 515-576) on a fault-free run:
main batch loop with a per-batch flush, serial retry pass over the failed
pages, final flush when the accumulated set is non-empty (lines 568-571). -/
def scrape_pages {W : Type} (job : Nat → W → Except Unit (List Rec) × W)
    (sched : List Nat → List Nat) (B s e : Nat) (w : W) (store0 : Store) : OrchResult :=
  let r := runBatches job sched (batches B s e) [] [] [] w
  let acc := r.1.1
  let failed := r.1.2.1
  let fls := r.1.2.2
  let r2 := retryPass job failed acc r.2
  let acc2 := r2.1
  let fls2 := if acc2 = [] then fls else fls ++ [acc2]
  { allResults := acc2, failed := failed, flushes := fls2,
    store := applyFlushes store0 fls2, raised := false }

/-- `scrape_pages` when an unexpected exception strikes the orchestration
loop itself after `k` complete batches and `j` collected pages of the next
batch: the `except` handler (lines 574-576) only logs and re-raises, so the
run ends with exactly the flushes the completed batches performed and
`raised = true`. -/
def scrape_pages_fault {W : Type} (job : Nat → W → Except Unit (List Rec) × W)
    (sched : List Nat → List Nat) (B s e : Nat) (w : W) (store0 : Store)
    (k j : Nat) : OrchResult :=
  let bs := batches B s e
  let r := runBatches job sched (bs.take k) [] [] [] w
  let cur := match bs.drop k with
    | [] => []
    | b :: _ => (sched b).take j
  let c := collect job cur r.1.1 r.1.2.1 r.2
  { allResults := c.1, failed := c.2.1, flushes := r.1.2.2,
    store := applyFlushes store0 r.1.2.2, raised := true }

/-- A pure page job: the records each Page Fetch Job would return when run
in isolation, independent of any shared world. -/
def pureJob (jobP : Nat → List Rec) : Nat → Unit → Except Unit (List Rec) × Unit :=
  fun p _ => (Except.ok (jobP p), ())

/-- Modelled from the spec (section 8): the union of the records each Page
Fetch Job returns when run in isolation on its page, over the range
`[s, e]` — the comparison side of the batching refinement claim. -/
def isolatedUnion (jobP : Nat → List Rec) (s e : Nat) : List Rec :=
  ((pageRange s e).map jobP).flatten

/-- Session-lifecycle automaton state: `none` means the event trace violated
session scoping; `some none` means no session is currently open;
`some (some d)` means exactly session `d` is open. An open while a session
is already open, a quit with no session open, or a quit of a session other
than the open one all invalidate the trace. -/
def scopedStep : Option (Option Nat) → SEv → Option (Option Nat) := fun st e =>
  match st, e with
  | some none, SEv.openS i => some (some i)
  | some (some d), SEv.quitS j => if d = j then some none else none
  | st', SEv.load _ => st'
  | st', SEv.sleepRetry => st'
  | _, _ => none

/-- Run the session automaton over a log. -/
def sessionTrace (l : List SEv) : Option (Option Nat) :=
  l.foldl scopedStep (some none)

/-- A log is properly session-scoped when the automaton accepts it with no
session left open: every opened session is quit exactly once, within the
attempt that opened it and before any later session opens — so no session
leaks or is reused across attempts. -/
def scopedSessions (l : List SEv) : Bool := sessionTrace l == some none

/-! ### Egress identity pool: `ProxyRotator` -/

/-- A proxy endpoint (`host:port` text). -/
abbrev Proxy := String

/-- `ProxyRotator` state (lines 41-48): the validated proxy list, the
round-robin index, whether the single pool lock (`threading.Lock`, which is
not reentrant) is currently held, and the epoch-seconds timestamp of the
last refresh. -/
structure ProxyRotator where
  proxies : List Proxy
  current_index : Nat
  locked : Bool
  last_update : Nat
deriving DecidableEq, Repr

/-- `ProxyRotator.__init__`: empty pool, index 0, unlocked, `last_update = 0`. -/
def mkProxyRotator : ProxyRotator :=
  { proxies := [], current_index := 0, locked := false, last_update := 0 }

/-- Result of running a pool operation in one thread: either it returns, or
it blocks forever acquiring the already-held non-reentrant lock. -/
inductive Outcome (α : Type) where
  | ok (a : α)
  | blocked
deriving DecidableEq, Repr

/-- `ProxyRotator.update_proxies` (lines 50-82): the network fetch and the
candidate probing happen without the lock and are abstracted by `valid`, the
resulting validated list; installing it (lines 78-82) acquires `self.lock`,
so the call blocks forever when the lock is already held. -/
def update_proxies (valid : List Proxy) (now : Nat) (r : ProxyRotator) :
    Outcome ProxyRotator :=
  if r.locked then Outcome.blocked
  else Outcome.ok { proxies := valid, current_index := 0, locked := false, last_update := now }

/-- `ProxyRotator.get_proxy` (lines 98-111): acquire `self.lock`, refresh via
`update_proxies` when the pool is empty or older than the 300-second
interval, return `None` when the pool is still empty, otherwise hand out
`proxies[current_index]` and advance the index modulo the pool size. -/
def get_proxy (valid : List Proxy) (now : Nat) (r : ProxyRotator) :
    Outcome (Option Proxy × ProxyRotator) :=
  if r.locked then Outcome.blocked
  else
    let r1 : ProxyRotator := { r with locked := true }
    let step : Outcome ProxyRotator :=
      if r1.proxies = [] ∨ 300 < now - r1.last_update then update_proxies valid now r1
      else Outcome.ok r1
    match step with
    | Outcome.blocked => Outcome.blocked
    | Outcome.ok r2 =>
      if r2.proxies = [] then Outcome.ok (none, { r2 with locked := false })
      else
        let p := r2.proxies.getD r2.current_index ""
        Outcome.ok (some p,
          { r2 with current_index := (r2.current_index + 1) % r2.proxies.length,
                    locked := false })

/-- `RetrySession.get` (lines 161-171), restricted to its proxy-selection
effect: ask the rotator for a proxy; when one comes back, pass the
`{http, https}` proxies mapping, otherwise omit the `proxies` argument
(`none`) and proceed unproxied. -/
def retry_session_get (valid : List Proxy) (now : Nat) (r : ProxyRotator) :
    Outcome (Option (Proxy × Proxy) × ProxyRotator) :=
  match get_proxy valid now r with
  | Outcome.blocked => Outcome.blocked
  | Outcome.ok (some p, r') => Outcome.ok (some (p, p), r')
  | Outcome.ok (none, r') => Outcome.ok (none, r')

/-! ### Concrete instances used by counterexamples and witnesses -/

/-- An environment where every setup, navigation and wait succeeds and page
`p` yields the single record `(p, 0)`. -/
def okOracle : Oracle :=
  { setupO := fun _ => SetupRes.ok
    navO := fun _ _ => NavRes.ok
    waitO := fun _ p => WaitRes.items [(p, 0)] }

/-- An environment where driver creation always fails outright (both the
ChromeDriverManager path and the fallback), so `setup_driver` raises without
opening a session. -/
def failSetupOracle : Oracle :=
  { setupO := fun _ => SetupRes.failNoOpen
    navO := fun _ _ => NavRes.ok
    waitO := fun _ _ => WaitRes.timeout }

/-- An environment where driver creation succeeds but the post-creation
stealth command (`execute_cdp_cmd`, line 216) raises, so `setup_driver`
raises with the session already open. -/
def leakOracle : Oracle :=
  { setupO := fun _ => SetupRes.failLeak
    navO := fun _ _ => NavRes.ok
    waitO := fun _ _ => WaitRes.timeout }

/-- The environment of claim C2's scenario: every page load succeeds and
yields 3 records, except page 3, whose element wait times out on its first
two loads and would yield 2 records from the third load on. -/
def oC2 : Oracle :=
  { setupO := fun _ => SetupRes.ok
    navO := fun _ _ => NavRes.ok
    waitO := fun s p =>
      if p = 3 then
        if 3 ≤ s.log.count (SEv.load 3) then WaitRes.items [(3, 0), (3, 1)]
        else WaitRes.timeout
      else WaitRes.items [(p, 0), (p, 1), (p, 2)] }

/-- The Page Fetch Job of claim C2's scenario: `_scrape_single_page` run
against `oC2`. -/
def jobC2 : Nat → SState → Except Unit (List Rec) × SState :=
  fun p s => scrape_single_page oC2 p s

/-- A pure job where every page yields 3 records. -/
def jobAll3 : Nat → List Rec := fun p => [(p, 0), (p, 1), (p, 2)]

/-- Fresh scraper world. -/
def sInit : SState := { nextId := 0, log := [] }

/-- Empty result store: no output file exists yet, no writes performed. -/
def storeInit : Store := { jsonFile := none, csvFile := none, writes := 0 }

/-- A pool state holding the validated list `["a", "a", "b"]` (two distinct
valid identities, one of them listed twice), freshly refreshed at time 1000. -/
def dupPool : ProxyRotator :=
  { proxies := ["a", "a", "b"], current_index := 0, locked := false, last_update := 1000 }

/-- Accumulation order on record lists: `b` extends `a` at the end. -/
def listLe (a b : List Rec) : Prop := ∃ t, b = a ++ t

/-! ## Pool lock claims (C7, C8, C9) -/

/-- C7: whenever `get_proxy` is called with the pool lock free and the
refresh condition met (empty pool, or pool older than the 300-second
interval), the call blocks forever: it holds the non-reentrant
`threading.Lock` while `update_proxies` re-acquires the same lock, so the
acquire never returns — contradicting the claim that every acquisition
terminates and refresh never deadlocks the pool. -/
theorem c7_acquire_self_deadlock (valid : List Proxy) (now : Nat) (r : ProxyRotator)
    (hlock : r.locked = false)
    (href : r.proxies = [] ∨ 300 < now - r.last_update) :
    get_proxy valid now r = Outcome.blocked := by
  obtain ⟨pl, ci, lk, lu⟩ := r
  simp only at hlock
  subst hlock
  simp only [get_proxy, update_proxies]
  rw [if_pos href]
  simp

/-- Witness for C7: the very first `get_proxy` call on a freshly constructed
`ProxyRotator` (empty pool) blocks forever, whatever the identity source
would have returned. -/
theorem c7_witness : get_proxy ["p"] 1000 mkProxyRotator = Outcome.blocked :=
  c7_acquire_self_deadlock ["p"] 1000 mkProxyRotator rfl (Or.inl rfl)

/-- C8: when the identity source yields zero usable identities and the pool
is empty, `get_proxy` does not return "none available" as claimed — it
blocks forever in the self-deadlocked refresh, and so does the
`RetrySession.get` caller that would have proceeded unproxied. -/
theorem c8_refresh_empty_blocks :
    get_proxy [] 50 mkProxyRotator = Outcome.blocked
    ∧ (∀ r' : ProxyRotator, get_proxy [] 50 mkProxyRotator ≠ Outcome.ok (none, r'))
    ∧ retry_session_get [] 50 mkProxyRotator = Outcome.blocked := by
  refine ⟨rfl, ?_, rfl⟩
  intro r' h
  rw [show get_proxy [] 50 mkProxyRotator = Outcome.blocked from rfl] at h
  exact Outcome.noConfusion h

/-- C9 counterexample: the pool state `dupPool` holds two distinct valid
identities ("a" and "b", with "a" listed twice after stripping), is fresh,
and yet two consecutive `get_proxy` calls both return identity "a". -/
theorem c9_counterexample :
    ("a" : Proxy) ≠ "b"
    ∧ ("a" : Proxy) ∈ dupPool.proxies ∧ ("b" : Proxy) ∈ dupPool.proxies
    ∧ get_proxy [] 1000 dupPool
        = Outcome.ok (some "a",
            { proxies := ["a", "a", "b"], current_index := 1, locked := false, last_update := 1000 })
    ∧ get_proxy [] 1000
          { proxies := ["a", "a", "b"], current_index := 1, locked := false, last_update := 1000 }
        = Outcome.ok (some "a",
            { proxies := ["a", "a", "b"], current_index := 2, locked := false, last_update := 1000 }) := by
  refine ⟨by decide, by decide, by decide, rfl, rfl⟩

/-- Evaluation of `get_proxy` on the rotation path: lock free, pool
non-empty and fresh, so no refresh is triggered and the round-robin hand-out
runs. -/
theorem get_proxy_rotate (valid : List Proxy) (now : Nat) (pl : List Proxy) (ci lu : Nat)
    (hne : pl ≠ []) (hfresh : ¬ 300 < now - lu) :
    get_proxy valid now ⟨pl, ci, false, lu⟩ =
      Outcome.ok (some (pl.getD ci ""), ⟨pl, (ci + 1) % pl.length, false, lu⟩) := by
  simp only [get_proxy]
  rw [if_neg (by simp [hne, hfresh])]
  simp [hne]
  rw [if_neg hfresh]
  simp [hne]

/-- C9 (amended): when the validated list contains no duplicate entries, has
at least 2 identities, the index is in range and the pool is fresh enough
that neither call triggers a refresh, two consecutive `get_proxy` calls
return different identities (round-robin via the advancing index). -/
theorem c9_amended (valid1 valid2 : List Proxy) (now1 now2 : Nat) (r : ProxyRotator)
    (hnd : r.proxies.Nodup) (hlen : 2 ≤ r.proxies.length)
    (hidx : r.current_index < r.proxies.length) (hlock : r.locked = false)
    (hfresh1 : ¬ 300 < now1 - r.last_update)
    (hfresh2 : ¬ 300 < now2 - r.last_update) :
    ∃ p1 p2 r1 r2,
      get_proxy valid1 now1 r = Outcome.ok (some p1, r1)
      ∧ get_proxy valid2 now2 r1 = Outcome.ok (some p2, r2)
      ∧ p1 ≠ p2 := by
  obtain ⟨pl, ci, lk, lu⟩ := r
  simp only at hnd hlen hidx hfresh1 hfresh2 hlock
  subst hlock
  have hne : pl ≠ [] := by
    intro h
    rw [h] at hlen
    simp at hlen
  have hn : 0 < pl.length := List.length_pos.mpr hne
  have hlt2 : (ci + 1) % pl.length < pl.length := Nat.mod_lt _ hn
  refine ⟨pl.getD ci "", pl.getD ((ci + 1) % pl.length) "", _, _,
    get_proxy_rotate valid1 now1 pl ci lu hne hfresh1,
    get_proxy_rotate valid2 now2 pl ((ci + 1) % pl.length) lu hne hfresh2, ?_⟩
  rw [pl.getD_eq_getElem "" hidx, pl.getD_eq_getElem "" hlt2]
  have hneidx : ci ≠ (ci + 1) % pl.length := by
    rcases Nat.lt_or_ge (ci + 1) pl.length with h | h
    · rw [Nat.mod_eq_of_lt h]
      omega
    · have he : ci + 1 = pl.length := by omega
      rw [he, Nat.mod_self]
      omega
  intro hcontra
  exact hneidx ((List.Nodup.getElem_inj_iff hnd).mp hcontra)

/-- Witness for C9 (amended): on the duplicate-free pool `["a", "b"]` the
two consecutive acquisitions return two different identities. -/
theorem c9_witness :
    ∃ p1 p2 r1 r2,
      get_proxy [] 100 ⟨["a", "b"], 0, false, 100⟩ = Outcome.ok (some p1, r1)
      ∧ get_proxy [] 100 r1 = Outcome.ok (some p2, r2)
      ∧ p1 ≠ p2 :=
  c9_amended [] [] 100 100 ⟨["a", "b"], 0, false, 100⟩
    (by decide) (by decide) (by decide) rfl (by decide) (by decide)

/-! ## Concrete-scenario claims (C2) and the fatal-path / session counterexamples -/

/-- C2 counterexample: in the claimed scenario (range [1,4], batch size 2,
page 3's element wait timing out on its first two loads and yielding 2
records from the third load on), the run does NOT end with 11 records and an
empty failed-page list: a wait timeout returns `[]` without consuming the
in-job retry budget, so page 3 is only ever loaded twice (main pass plus the
single serial retry), and the failed-page list is never cleared. -/
theorem c2_counterexample :
    ¬ ((scrape_pages jobC2 id 2 1 4 sInit storeInit).allResults.length = 11
       ∧ (scrape_pages jobC2 id 2 1 4 sInit storeInit).failed = []) := by
  decide

/-- C2 (amended): in that scenario the final accumulated set has 9 records
(3 + 3 + 0 + 3): page 3's two loads both time out and contribute nothing,
and the failed-page list still contains page 3 after the retry pass. Page 3
is loaded exactly twice over the whole run. -/
theorem c2_amended :
    (scrape_pages jobC2 id 2 1 4 sInit storeInit).allResults.length = 9
    ∧ (scrape_pages jobC2 id 2 1 4 sInit storeInit).failed = [3]
    ∧ (scrape_pages jobC2 id 2 1 4 sInit storeInit).flushes.map List.length = [6, 9, 9] := by
  decide

/-- C4 counterexample: with every page yielding 3 records on [1,4] and an
unexpected orchestration-loop error after batch 1 plus one collected page of
batch 2, the exception propagates with 9 records accumulated but the last
(and only) flush holding the 6 records of batch 1 — `save_results` is NOT
invoked with the current accumulated set on the fatal path. -/
theorem c4_counterexample :
    (scrape_pages_fault (pureJob jobAll3) id 2 1 4 () storeInit 1 1).raised = true
    ∧ (scrape_pages_fault (pureJob jobAll3) id 2 1 4 () storeInit 1 1).allResults.length = 9
    ∧ (scrape_pages_fault (pureJob jobAll3) id 2 1 4 () storeInit 1 1).flushes.map List.length = [6]
    ∧ (scrape_pages_fault (pureJob jobAll3) id 2 1 4 () storeInit 1 1).flushes.getLast?
        ≠ some (scrape_pages_fault (pureJob jobAll3) id 2 1 4 () storeInit 1 1).allResults := by
  decide

/-- C5 counterexample: a Page Fetch Job whose constructor-run `setup_driver`
creates the Chrome session and then fails on the post-creation stealth
command raises out of `__init__` with the session still open: one open, zero
quits at job completion. -/
theorem c5_counterexample :
    (scrape_single_page leakOracle 1 sInit).1 = Except.error ()
    ∧ (scrape_single_page leakOracle 1 sInit).2.log = [SEv.openS 0]
    ∧ (scrape_single_page leakOracle 1 sInit).2.log.count (SEv.openS 0) = 1
    ∧ (scrape_single_page leakOracle 1 sInit).2.log.count (SEv.quitS 0) = 0 :=
  ⟨rfl, by decide, by decide, by decide⟩

/-- C6 counterexample: a session-init failure inside the `PageScraper`
constructor is not absorbed by the in-job retry loop — the exception
propagates out of `_scrape_single_page` to the orchestrator's collection
loop. -/
theorem c6_counterexample :
    (scrape_single_page failSetupOracle 1 sInit).1 = Except.error () := rfl

/-! ## Accumulation lemmas for the orchestrator -/

/-- Reflexivity of accumulation order. -/
theorem listLe_refl (a : List Rec) : listLe a a := ⟨[], by simp⟩

/-- Transitivity of accumulation order. -/
theorem listLe_trans {a b c : List Rec} (h1 : listLe a b) (h2 : listLe b c) : listLe a c := by
  obtain ⟨t1, rfl⟩ := h1
  obtain ⟨t2, rfl⟩ := h2
  exact ⟨t1 ++ t2, by simp⟩

/-- The collection loop only ever appends to `all_results`. -/
theorem collect_acc_ext {W : Type} (job : Nat → W → Except Unit (List Rec) × W) :
    ∀ (l : List Nat) (acc : List Rec) (failed : List Nat) (w : W),
      ∃ t, (collect job l acc failed w).1 = acc ++ t := by
  intro l
  induction l with
  | nil => intro acc failed w; exact ⟨[], by simp [collect]⟩
  | cons p ps ih =>
    intro acc failed w
    rcases hj : job p w with ⟨r, w'⟩
    rcases r with _ | rs
    · simp only [collect, hj]
      exact ih acc (failed ++ [p]) w'
    · by_cases hrs : rs = []
      · simp only [collect, hj, if_pos hrs]
        exact ih acc (failed ++ [p]) w'
      · simp only [collect, hj, if_neg hrs]
        obtain ⟨t, ht⟩ := ih (acc ++ rs) failed w'
        exact ⟨rs ++ t, by simp [ht]⟩

/-- The serial retry pass only ever appends to `all_results`. -/
theorem retryPass_acc_ext {W : Type} (job : Nat → W → Except Unit (List Rec) × W) :
    ∀ (ps : List Nat) (acc : List Rec) (w : W),
      ∃ t, (retryPass job ps acc w).1 = acc ++ t := by
  intro ps
  induction ps with
  | nil => intro acc w; exact ⟨[], by simp [retryPass]⟩
  | cons p ps ih =>
    intro acc w
    rcases hj : job p w with ⟨r, w'⟩
    rcases r with _ | rs
    · simp only [retryPass, hj]
      exact ih acc w'
    · by_cases hrs : rs = []
      · simp only [retryPass, hj, if_pos hrs]
        exact ih acc w'
      · simp only [retryPass, hj, if_neg hrs]
        obtain ⟨t, ht⟩ := ih (acc ++ rs) w'
        exact ⟨rs ++ t, by simp [ht]⟩

/-- Invariant of the main batch loop: the flush sequence is totally ordered
by end-extension, and every flushed snapshot is an end-extension prefix of
the current accumulated set. -/
theorem runBatches_inv {W : Type} (job : Nat → W → Except Unit (List Rec) × W)
    (sched : List Nat → List Nat) :
    ∀ (bs : List (List Nat)) (acc : List Rec) (failed : List Nat)
      (fls : List (List Rec)) (w : W),
      List.Pairwise listLe fls → (∀ x ∈ fls, listLe x acc) →
      List.Pairwise listLe (runBatches job sched bs acc failed fls w).1.2.2
      ∧ ∀ x ∈ (runBatches job sched bs acc failed fls w).1.2.2,
          listLe x (runBatches job sched bs acc failed fls w).1.1 := by
  intro bs
  induction bs with
  | nil => intro acc failed fls w h1 h2; exact ⟨h1, h2⟩
  | cons b bs ih =>
    intro acc failed fls w h1 h2
    simp only [runBatches]
    obtain ⟨t, ht⟩ := collect_acc_ext job (sched b) acc failed w
    have hle : listLe acc (collect job (sched b) acc failed w).1 := ⟨t, ht⟩
    have h2' : ∀ x ∈ fls, listLe x (collect job (sched b) acc failed w).1 :=
      fun x hx => listLe_trans (h2 x hx) hle
    by_cases hnil : (collect job (sched b) acc failed w).1 = []
    · rw [if_pos hnil]
      exact ih _ _ _ _ h1 h2'
    · rw [if_neg hnil]
      refine ih _ _ _ _ ?_ ?_
      · rw [List.pairwise_append]
        exact ⟨h1, List.pairwise_singleton _ _, fun x hx y hy => by
          rw [List.mem_singleton] at hy
          subst hy
          exact h2' x hx⟩
      · intro x hx
        rcases List.mem_append.mp hx with hx | hx
        · exact h2' x hx
        · rw [List.mem_singleton] at hx
          subst hx
          exact listLe_refl _

/-- The flush sequence of a full `scrape_pages` run is totally ordered by
end-extension. -/
theorem scrape_pages_flushes_pairwise {W : Type} (job : Nat → W → Except Unit (List Rec) × W)
    (sched : List Nat → List Nat) (B s e : Nat) (w : W) (store0 : Store) :
    List.Pairwise listLe (scrape_pages job sched B s e w store0).flushes := by
  simp only [scrape_pages]
  obtain ⟨hp, hacc⟩ := runBatches_inv job sched (batches B s e) [] [] [] w
    (List.Pairwise.nil) (by simp)
  obtain ⟨t2, ht2⟩ := retryPass_acc_ext job
    (runBatches job sched (batches B s e) [] [] [] w).1.2.1
    (runBatches job sched (batches B s e) [] [] [] w).1.1
    (runBatches job sched (batches B s e) [] [] [] w).2
  by_cases hnil : (retryPass job (runBatches job sched (batches B s e) [] [] [] w).1.2.1
      (runBatches job sched (batches B s e) [] [] [] w).1.1
      (runBatches job sched (batches B s e) [] [] [] w).2).1 = []
  · rw [if_pos hnil]
    exact hp
  · rw [if_neg hnil]
    rw [List.pairwise_append]
    refine ⟨hp, List.pairwise_singleton _ _, fun x hx y hy => ?_⟩
    rw [List.mem_singleton] at hy
    subst hy
    exact listLe_trans (hacc x hx) ⟨t2, ht2⟩

/-- C3: the record set flushed to the Result Store after batch N is a
superset of (indeed end-extends) the set flushed after batch N-1, and its
record count is monotonically non-decreasing: the accumulated set is
append-only across the whole run. Stated for any two consecutive flushes of
any `scrape_pages` run, over an arbitrary job and completion schedule. -/
theorem c3_flushes_monotone {W : Type} (job : Nat → W → Except Unit (List Rec) × W)
    (sched : List Nat → List Nat) (B s e : Nat) (w : W) (store0 : Store) (i : Nat)
    (h : i + 1 < (scrape_pages job sched B s e w store0).flushes.length) :
    (∀ x ∈ (scrape_pages job sched B s e w store0).flushes.get ⟨i, Nat.lt_of_succ_lt h⟩,
        x ∈ (scrape_pages job sched B s e w store0).flushes.get ⟨i + 1, h⟩)
    ∧ ((scrape_pages job sched B s e w store0).flushes.get ⟨i, Nat.lt_of_succ_lt h⟩).length
        ≤ ((scrape_pages job sched B s e w store0).flushes.get ⟨i + 1, h⟩).length := by
  have hp := scrape_pages_flushes_pairwise job sched B s e w store0
  rw [List.pairwise_iff_getElem] at hp
  have hle := hp i (i + 1) (Nat.lt_of_succ_lt h) h (Nat.lt_succ_self i)
  obtain ⟨t, ht⟩ := hle
  constructor
  · intro x hx
    simp only [List.get_eq_getElem] at hx ⊢
    rw [ht]
    exact List.mem_append_left _ hx
  · simp only [List.get_eq_getElem]
    rw [ht]
    simp

/-- Witness for C3: in the all-pages-succeed run on [1,4] the first flush (6
records) is contained in the second (12 records), with non-decreasing count. -/
theorem c3_witness :
    (∀ x ∈ (scrape_pages (pureJob jobAll3) id 2 1 4 () storeInit).flushes.get
        ⟨0, Nat.lt_of_succ_lt (by decide)⟩,
      x ∈ (scrape_pages (pureJob jobAll3) id 2 1 4 () storeInit).flushes.get ⟨1, by decide⟩)
    ∧ ((scrape_pages (pureJob jobAll3) id 2 1 4 () storeInit).flushes.get
        ⟨0, Nat.lt_of_succ_lt (by decide)⟩).length
      ≤ ((scrape_pages (pureJob jobAll3) id 2 1 4 () storeInit).flushes.get ⟨1, by decide⟩).length :=
  c3_flushes_monotone (pureJob jobAll3) id 2 1 4 () storeInit 0 (by decide)

/-- The main batch loop splits over list append: processing `bs1 ++ bs2` is
processing `bs1`, then `bs2` from the resulting state. -/
theorem runBatches_append {W : Type} (job : Nat → W → Except Unit (List Rec) × W)
    (sched : List Nat → List Nat) :
    ∀ (bs1 bs2 : List (List Nat)) (acc : List Rec) (failed : List Nat)
      (fls : List (List Rec)) (w : W),
      runBatches job sched (bs1 ++ bs2) acc failed fls w
      = runBatches job sched bs2
          (runBatches job sched bs1 acc failed fls w).1.1
          (runBatches job sched bs1 acc failed fls w).1.2.1
          (runBatches job sched bs1 acc failed fls w).1.2.2
          (runBatches job sched bs1 acc failed fls w).2 := by
  intro bs1
  induction bs1 with
  | nil => intro bs2 acc failed fls w; rfl
  | cons b bs ih =>
    intro bs2 acc failed fls w
    simp only [List.cons_append, runBatches]
    exact ih bs2 _ _ _ _

/-- The main batch loop only ever appends to the flush sequence. -/
theorem runBatches_fls_ext {W : Type} (job : Nat → W → Except Unit (List Rec) × W)
    (sched : List Nat → List Nat) :
    ∀ (bs : List (List Nat)) (acc : List Rec) (failed : List Nat)
      (fls : List (List Rec)) (w : W),
      ∃ t, (runBatches job sched bs acc failed fls w).1.2.2 = fls ++ t := by
  intro bs
  induction bs with
  | nil => intro acc failed fls w; exact ⟨[], by simp [runBatches]⟩
  | cons b bs ih =>
    intro acc failed fls w
    simp only [runBatches]
    by_cases hnil : (collect job (sched b) acc failed w).1 = []
    · rw [if_pos hnil]
      exact ih _ _ _ _
    · rw [if_neg hnil]
      obtain ⟨t, ht⟩ := ih (collect job (sched b) acc failed w).1
        (collect job (sched b) acc failed w).2.1
        (fls ++ [(collect job (sched b) acc failed w).1])
        (collect job (sched b) acc failed w).2.2
      exact ⟨[(collect job (sched b) acc failed w).1] ++ t, by simp [ht]⟩

/-- C4 (amended): on the run-fatal path (an unexpected error in the
orchestration loop after `k` completed batches and `j` collected pages of
the next one) the handler only logs and re-raises: the fatal run's flush
sequence is exactly the per-batch flushes already performed — an initial
segment of the fault-free run's flush sequence, with no additional flush of
the at-raise accumulation — and every flushed snapshot end-extends into the
accumulated set held when the exception propagates. -/
theorem c4_amended {W : Type} (job : Nat → W → Except Unit (List Rec) × W)
    (sched : List Nat → List Nat) (B s e : Nat) (w : W) (store0 : Store) (k j : Nat) :
    (∃ t, (scrape_pages job sched B s e w store0).flushes
        = (scrape_pages_fault job sched B s e w store0 k j).flushes ++ t)
    ∧ (∀ x ∈ (scrape_pages_fault job sched B s e w store0 k j).flushes,
        listLe x (scrape_pages_fault job sched B s e w store0 k j).allResults)
    ∧ (scrape_pages_fault job sched B s e w store0 k j).raised = true := by
  refine ⟨?_, ?_, rfl⟩
  · simp only [scrape_pages, scrape_pages_fault]
    have hsplit := runBatches_append job sched ((batches B s e).take k)
      ((batches B s e).drop k) [] [] [] w
    rw [List.take_append_drop] at hsplit
    rw [hsplit]
    set R1 := runBatches job sched ((batches B s e).take k) [] [] [] w with hR1
    obtain ⟨t1, ht1⟩ := runBatches_fls_ext job sched ((batches B s e).drop k)
      R1.1.1 R1.1.2.1 R1.1.2.2 R1.2
    set R2 := runBatches job sched ((batches B s e).drop k) R1.1.1 R1.1.2.1 R1.1.2.2 R1.2
      with hR2
    set A2 := (retryPass job R2.1.2.1 R2.1.1 R2.2).1 with hA2
    by_cases hnil : A2 = []
    · rw [if_pos hnil]
      exact ⟨t1, ht1⟩
    · rw [if_neg hnil]
      exact ⟨t1 ++ [A2], by rw [ht1, List.append_assoc]⟩
  · intro x hx
    simp only [scrape_pages_fault] at hx ⊢
    obtain ⟨hp, hacc⟩ := runBatches_inv job sched ((batches B s e).take k) [] [] [] w
      (List.Pairwise.nil) (by simp)
    obtain ⟨t2, ht2⟩ := collect_acc_ext job
      (match (batches B s e).drop k with
        | [] => []
        | b :: _ => (sched b).take j)
      (runBatches job sched ((batches B s e).take k) [] [] [] w).1.1
      (runBatches job sched ((batches B s e).take k) [] [] [] w).1.2.1
      (runBatches job sched ((batches B s e).take k) [] [] [] w).2
    exact listLe_trans (hacc x hx) ⟨t2, ht2⟩

/-! ## Batching refinement (C1) -/

/-- On a pure job the collection loop adds exactly the concatenation of the
per-page results and records exactly the zero-record pages as failed. -/
theorem collect_pure (jobP : Nat → List Rec) :
    ∀ (l : List Nat) (acc : List Rec) (failed : List Nat),
      collect (pureJob jobP) l acc failed ()
        = (acc ++ (l.map jobP).flatten,
           failed ++ l.filter (fun p => (jobP p).isEmpty), ()) := by
  intro l
  induction l with
  | nil => intro acc failed; simp [collect]
  | cons p ps ih =>
    intro acc failed
    by_cases hrs : jobP p = []
    · simp only [collect, pureJob, if_pos hrs, ih, List.map_cons, List.flatten_cons,
        List.filter_cons]
      rw [hrs]
      simp
    · have hne : ¬ (jobP p).isEmpty = true := by
        simpa [List.isEmpty_iff] using hrs
      simp only [collect, pureJob, if_neg hrs, ih, List.map_cons, List.flatten_cons,
        List.filter_cons]
      rw [if_neg hne]
      simp

/-- On a pure job the main batch loop accumulates exactly the concatenation
of the per-batch, per-page results in completion order. -/
theorem runBatches_pure (jobP : Nat → List Rec) (sched : List Nat → List Nat) :
    ∀ (bs : List (List Nat)) (acc : List Rec) (failed : List Nat) (fls : List (List Rec)),
      (runBatches (pureJob jobP) sched bs acc failed fls ()).1.1
        = acc ++ (bs.map (fun b => ((sched b).map jobP).flatten)).flatten := by
  intro bs
  induction bs with
  | nil => intro acc failed fls; simp [runBatches]
  | cons b bs ih =>
    intro acc failed fls
    simp only [runBatches, collect_pure, List.map_cons, List.flatten_cons]
    rw [ih]
    simp [List.append_assoc]

/-- On a pure job every page recorded as failed yields the empty record
list. -/
theorem runBatches_pure_failed (jobP : Nat → List Rec) (sched : List Nat → List Nat) :
    ∀ (bs : List (List Nat)) (acc : List Rec) (failed : List Nat) (fls : List (List Rec)),
      (∀ p ∈ failed, jobP p = []) →
      ∀ p ∈ (runBatches (pureJob jobP) sched bs acc failed fls ()).1.2.1, jobP p = [] := by
  intro bs
  induction bs with
  | nil => intro acc failed fls h; simpa [runBatches] using h
  | cons b bs ih =>
    intro acc failed fls h
    simp only [runBatches, collect_pure]
    refine ih _ _ _ ?_
    intro p hp
    rcases List.mem_append.mp hp with hp | hp
    · exact h p hp
    · rw [List.mem_filter] at hp
      exact List.isEmpty_iff.mp hp.2

/-- The retry pass adds nothing when every retried page yields no records. -/
theorem retryPass_pure_nil (jobP : Nat → List Rec) :
    ∀ (ps : List Nat) (acc : List Rec),
      (∀ p ∈ ps, jobP p = []) → (retryPass (pureJob jobP) ps acc ()).1 = acc := by
  intro ps
  induction ps with
  | nil => intro acc _; rfl
  | cons p ps ih =>
    intro acc h
    have hp : jobP p = [] := h p (List.mem_cons_self p ps)
    simp only [retryPass, pureJob, if_pos hp]
    exact ih acc fun q hq => h q (List.mem_cons_of_mem p hq)

/-- Joining the batch partition of `[s, e]` recovers the page range exactly:
every page is dispatched exactly once by the main pass. -/
theorem batchesGo_join (B : Nat) (hB : 1 ≤ B) (e : Nat) :
    ∀ (fuel s : Nat), e + 1 - s ≤ fuel →
      (batchesGo B fuel s e).flatten = List.range' s (e + 1 - s) := by
  intro fuel
  induction fuel with
  | zero =>
    intro s hs
    have : e + 1 - s = 0 := Nat.le_zero.mp hs
    simp [batchesGo, this]
  | succ fuel ih =>
    intro s hs
    by_cases hse : s ≤ e
    · simp only [batchesGo, if_pos hse, List.flatten_cons]
      have hrec := ih (s + B) (by omega)
      rw [hrec]
      rcases le_or_lt (s + B - 1) e with hbe | hbe
      · rw [min_eq_left hbe]
        simp only [pageRange]
        have h1 : s + B - 1 + 1 - s = B := by omega
        have h2 : s + B - 1 + 1 = s + B := by omega
        rw [h1]
        have := List.range'_append_1 s B (e + 1 - (s + B))
        rw [this]
        congr 1
        omega
      · rw [min_eq_right (by omega)]
        simp only [pageRange]
        have h0 : e + 1 - (s + B) = 0 := by omega
        rw [h0]
        simp
    · simp only [batchesGo, if_neg hse]
      have : e + 1 - s = 0 := by omega
      simp [this]

/-- Joining the batches recovers the inclusive page range. -/
theorem batches_join (B s e : Nat) (hB : 1 ≤ B) :
    (batches B s e).flatten = pageRange s e :=
  batchesGo_join B hB e (e + 1 - s) s (Nat.le_refl _)

/-- Mapping a job over a flattened page partition equals flattening the
per-batch mapped results. -/
theorem flatten_map_flatten (jobP : Nat → List Rec) :
    ∀ bs : List (List Nat),
      ((bs.flatten).map jobP).flatten
        = (bs.map (fun b => (b.map jobP).flatten)).flatten := by
  intro bs
  induction bs with
  | nil => rfl
  | cons b bs ih =>
    simp only [List.flatten_cons, List.map_append, List.flatten_append, List.map_cons, ih]

/-- Reordering each batch by a completion schedule permutes the accumulated
records: batching neither loses nor duplicates results. -/
theorem flatten_map_perm (jobP : Nat → List Rec) (sched : List Nat → List Nat)
    (hs : ∀ l, List.Perm (sched l) l) :
    ∀ bs : List (List Nat),
      List.Perm ((bs.map (fun b => ((sched b).map jobP).flatten)).flatten)
                ((bs.map (fun b => (b.map jobP).flatten)).flatten) := by
  intro bs
  induction bs with
  | nil => exact List.Perm.refl _
  | cons b bs ih =>
    simp only [List.map_cons, List.flatten_cons]
    exact List.Perm.append (List.Perm.flatten (List.Perm.map jobP (hs b))) ih

/-- C1: for every batch size B ≥ 1 and page range [s, e], the batched main
pass dispatches every page exactly once (the flattened batch partition is
exactly the page range), and over any completion schedule of each batch the
accumulated record set of `scrape_pages` is a permutation of — so has the
same union and multiplicities as — the records the Page Fetch Jobs return
in isolation. -/
theorem c1_batched_equals_isolated (B s e : Nat) (hB : 1 ≤ B) (jobP : Nat → List Rec)
    (sched : List Nat → List Nat) (hs : ∀ l, List.Perm (sched l) l) (store0 : Store) :
    (batches B s e).flatten = pageRange s e
    ∧ List.Perm (scrape_pages (pureJob jobP) sched B s e () store0).allResults
        (isolatedUnion jobP s e) := by
  refine ⟨batches_join B s e hB, ?_⟩
  simp only [scrape_pages]
  have hfail : ∀ p ∈ (runBatches (pureJob jobP) sched (batches B s e) [] [] [] ()).1.2.1,
      jobP p = [] :=
    runBatches_pure_failed jobP sched (batches B s e) [] [] [] (by simp)
  rw [retryPass_pure_nil jobP _ _ hfail]
  rw [runBatches_pure jobP sched (batches B s e) [] [] []]
  simp only [List.nil_append]
  have h1 := flatten_map_perm jobP sched hs (batches B s e)
  have h2 := flatten_map_flatten jobP (batches B s e)
  rw [batches_join B s e hB] at h2
  unfold isolatedUnion
  rw [h2]
  exact h1

/-- Witness for C1: with batch size 2 on [1, 4], identity completion order
and 3 records per page, the dispatched pages are exactly 1..4 and the
accumulated set is a permutation of the isolated per-page union. -/
theorem c1_witness :
    (batches 2 1 4).flatten = pageRange 1 4
    ∧ List.Perm (scrape_pages (pureJob jobAll3) id 2 1 4 () storeInit).allResults
        (isolatedUnion jobAll3 1 4) :=
  c1_batched_equals_isolated 2 1 4 (by decide) jobAll3 id (fun l => List.Perm.refl l) storeInit

/-! ## Empty-run frame effect (C10) -/

/-- When no job call yields a record, the collection loop leaves the
accumulator untouched. -/
theorem collect_empty {W : Type} (job : Nat → W → Except Unit (List Rec) × W)
    (hempty : ∀ p (w' : W), (job p w').1 = Except.ok [] ∨ (job p w').1 = Except.error ()) :
    ∀ (l : List Nat) (acc : List Rec) (failed : List Nat) (w : W),
      (collect job l acc failed w).1 = acc := by
  intro l
  induction l with
  | nil => intro acc failed w; rfl
  | cons p ps ih =>
    intro acc failed w
    rcases hj : job p w with ⟨r, w'⟩
    have hr := hempty p w
    rw [hj] at hr
    simp only at hr
    rcases hr with hr | hr <;> subst hr
    · simp only [collect, hj, if_pos rfl]
      exact ih acc (failed ++ [p]) w'
    · simp only [collect, hj]
      exact ih acc (failed ++ [p]) w'

/-- When no job call yields a record, the main batch loop accumulates
nothing and never flushes. -/
theorem runBatches_empty {W : Type} (job : Nat → W → Except Unit (List Rec) × W)
    (sched : List Nat → List Nat)
    (hempty : ∀ p (w' : W), (job p w').1 = Except.ok [] ∨ (job p w').1 = Except.error ()) :
    ∀ (bs : List (List Nat)) (failed : List Nat) (w : W),
      (runBatches job sched bs [] failed [] w).1.1 = []
      ∧ (runBatches job sched bs [] failed [] w).1.2.2 = [] := by
  intro bs
  induction bs with
  | nil => intro failed w; exact ⟨rfl, rfl⟩
  | cons b bs ih =>
    intro failed w
    have hc : (collect job (sched b) [] failed w).1 = [] := collect_empty job hempty _ _ _ _
    simp only [runBatches]
    rw [hc, if_pos rfl]
    exact ih _ _

/-- When no job call yields a record, the retry pass accumulates nothing. -/
theorem retryPass_empty {W : Type} (job : Nat → W → Except Unit (List Rec) × W)
    (hempty : ∀ p (w' : W), (job p w').1 = Except.ok [] ∨ (job p w').1 = Except.error ()) :
    ∀ (ps : List Nat) (w : W), (retryPass job ps [] w).1 = [] := by
  intro ps
  induction ps with
  | nil => intro w; rfl
  | cons p ps ih =>
    intro w
    rcases hj : job p w with ⟨r, w'⟩
    have hr := hempty p w
    rw [hj] at hr
    simp only at hr
    rcases hr with hr | hr <;> subst hr
    · simp only [retryPass, hj, if_pos rfl]
      exact ih w'
    · simp only [retryPass, hj]
      exact ih w'

/-- Every flush the main batch loop adds carries a non-empty record set. -/
theorem runBatches_flushes_ne_nil {W : Type} (job : Nat → W → Except Unit (List Rec) × W)
    (sched : List Nat → List Nat) :
    ∀ (bs : List (List Nat)) (acc : List Rec) (failed : List Nat)
      (fls : List (List Rec)) (w : W),
      (∀ l ∈ fls, l ≠ []) →
      ∀ l ∈ (runBatches job sched bs acc failed fls w).1.2.2, l ≠ [] := by
  intro bs
  induction bs with
  | nil => intro acc failed fls w h; simpa [runBatches] using h
  | cons b bs ih =>
    intro acc failed fls w h
    simp only [runBatches]
    by_cases hnil : (collect job (sched b) acc failed w).1 = []
    · rw [if_pos hnil]
      exact ih _ _ _ _ h
    · rw [if_neg hnil]
      refine ih _ _ _ _ ?_
      intro l hl
      rcases List.mem_append.mp hl with hl | hl
      · exact h l hl
      · rw [List.mem_singleton] at hl
        subst hl
        exact hnil

/-- Every record set handed to `save_results` during a run is non-empty. -/
theorem scrape_pages_flushes_ne_nil {W : Type} (job : Nat → W → Except Unit (List Rec) × W)
    (sched : List Nat → List Nat) (B s e : Nat) (w : W) (store0 : Store) :
    ∀ l ∈ (scrape_pages job sched B s e w store0).flushes, l ≠ [] := by
  simp only [scrape_pages]
  set R := runBatches job sched (batches B s e) [] [] [] w with hR
  set A2 := (retryPass job R.1.2.1 R.1.1 R.2).1 with hA2
  have hmain := runBatches_flushes_ne_nil job sched (batches B s e) [] [] [] w (by simp)
  by_cases hnil : A2 = []
  · rw [if_pos hnil]
    exact hmain
  · rw [if_neg hnil]
    intro l hl
    rcases List.mem_append.mp hl with hl | hl
    · exact hmain l hl
    · rw [List.mem_singleton] at hl
      subst hl
      exact hnil

/-- C10: with an empty record set `save_results` returns without writing
(the store, including any pre-existing output files, is unchanged); in a run
where no page ever yields a record the sink is never invoked and the store
is left exactly as it started; and any flush that does happen always carries
a non-empty record set. -/
theorem c10_empty_no_write {W : Type} (job : Nat → W → Except Unit (List Rec) × W)
    (sched : List Nat → List Nat) (B s e : Nat) (w : W) (store0 : Store)
    (hempty : ∀ p (w' : W), (job p w').1 = Except.ok [] ∨ (job p w').1 = Except.error ()) :
    (∀ st : Store, save_results [] st = st)
    ∧ (scrape_pages job sched B s e w store0).flushes = []
    ∧ (scrape_pages job sched B s e w store0).store = store0
    ∧ ∀ (job2 : Nat → W → Except Unit (List Rec) × W) (w2 : W),
        ∀ l ∈ (scrape_pages job2 sched B s e w2 store0).flushes, l ≠ [] := by
  have hfls : (scrape_pages job sched B s e w store0).flushes = [] := by
    simp only [scrape_pages]
    obtain ⟨hacc, hfl⟩ := runBatches_empty job sched hempty (batches B s e) [] w
    rw [hacc]
    rw [retryPass_empty job hempty]
    simp [hfl]
  refine ⟨fun st => by simp [save_results], hfls, ?_,
    fun job2 w2 => scrape_pages_flushes_ne_nil job2 sched B s e w2 store0⟩
  have : (scrape_pages job sched B s e w store0).store
      = applyFlushes store0 (scrape_pages job sched B s e w store0).flushes := by
    simp only [scrape_pages]
  rw [this, hfls]
  rfl

/-- Witness for C10: a job returning zero records for every page on the
range [1, 4] produces no flush and leaves the store untouched. -/
theorem c10_witness :
    (∀ st : Store, save_results [] st = st)
    ∧ (scrape_pages (fun _ _ => (Except.ok ([] : List Rec), ())) id 2 1 4 () storeInit).flushes = []
    ∧ (scrape_pages (fun _ _ => (Except.ok ([] : List Rec), ())) id 2 1 4 () storeInit).store
        = storeInit
    ∧ ∀ (job2 : Nat → Unit → Except Unit (List Rec) × Unit) (w2 : Unit),
        ∀ l ∈ (scrape_pages job2 id 2 1 4 w2 storeInit).flushes, l ≠ [] :=
  c10_empty_no_write (fun _ _ => (Except.ok ([] : List Rec), ())) id 2 1 4 () storeInit
    (fun _ _ => Or.inl rfl)

/-! ## Session lifecycle (C5, C6) -/

/-- Log of a pushed event. -/
theorem push_log (s : SState) (e : SEv) : (push s e).log = s.log ++ [e] := rfl

/-- The session automaton consumes one appended event at a time. -/
theorem sessionTrace_push (l : List SEv) (e : SEv) :
    sessionTrace (l ++ [e]) = scopedStep (sessionTrace l) e := by
  simp [sessionTrace, List.foldl_append]

/-- Page loads do not change the automaton state. -/
theorem scopedStep_load (st : Option (Option Nat)) (q : Nat) :
    scopedStep st (SEv.load q) = st := by
  rcases st with _ | _ | d <;> rfl

/-- Retry sleeps do not change the automaton state. -/
theorem scopedStep_sleep (st : Option (Option Nat)) :
    scopedStep st SEv.sleepRetry = st := by
  rcases st with _ | _ | d <;> rfl

/-- Opening from the idle state records the open session. -/
theorem scopedStep_open (i : Nat) :
    scopedStep (some none) (SEv.openS i) = some (some i) := rfl

/-- Quitting the open session returns the automaton to idle. -/
theorem scopedStep_quit_self (d : Nat) :
    scopedStep (some (some d)) (SEv.quitS d) = some none := by
  simp [scopedStep]

/-- Counting over an appended event. -/
theorem count_push (l : List SEv) (e a : SEv) :
    (l ++ [e]).count a = l.count a + if e = a then 1 else 0 := by
  rw [List.count_append, List.count_singleton]
  by_cases h : e = a
  · subst h
    simp
  · rw [if_neg h, if_neg (by simpa using h)]

/-- Session invariant of the retry loop entered with no driver: starting
from an idle automaton state and balanced open/quit counts, every execution
ends idle and balanced — each attempt opens at most one fresh session and
quits it on its own exit path. -/
theorem scrape_page_go_inv_none (o : Oracle) (p : Nat) :
    ∀ (fuel : Nat) (s : SState),
      sessionTrace s.log = some none →
      (∀ i, s.log.count (SEv.openS i) = s.log.count (SEv.quitS i)) →
      sessionTrace (scrape_page_go o p fuel none s).2.log = some none
      ∧ ∀ i, (scrape_page_go o p fuel none s).2.log.count (SEv.openS i)
          = (scrape_page_go o p fuel none s).2.log.count (SEv.quitS i) := by
  intro fuel
  induction fuel with
  | zero => intro s h1 h2; exact ⟨h1, h2⟩
  | succ fuel ih =>
    intro s h1 h2
    cases hset : o.setupO s with
    | failNoOpen =>
      simp only [scrape_page_go, setup_driver, hset, quitDrv]
      by_cases hf : 0 < fuel
      · rw [if_pos hf]
        refine ih _ ?_ ?_
        · simp only [push_log, sessionTrace_push, h1, scopedStep_sleep]
        · intro i
          simp only [push_log, count_push, h2 i]
          simp
      · rw [if_neg hf]
        exact ⟨h1, h2⟩
    | ok =>
      simp only [scrape_page_go, setup_driver, hset]
      cases hnav : o.navO (push { nextId := s.nextId + 1, log := s.log ++ [SEv.openS s.nextId] }
          (SEv.load p)) p with
      | raise =>
        simp only [quitDrv]
        by_cases hf : 0 < fuel
        · rw [if_pos hf]
          refine ih _ ?_ ?_
          · simp only [push_log, sessionTrace_push, h1, scopedStep_open, scopedStep_load,
              scopedStep_quit_self, scopedStep_sleep]
          · intro i
            simp only [push_log, count_push, h2 i]
            by_cases hi : i = s.nextId
            · subst hi
              simp
            · simp [hi, Ne.symm hi]
        · rw [if_neg hf]
          constructor
          · simp only [push_log, sessionTrace_push, h1, scopedStep_open, scopedStep_load,
              scopedStep_quit_self]
          · intro i
            simp only [push_log, count_push, h2 i]
            by_cases hi : i = s.nextId
            · subst hi
              simp
            · simp [hi, Ne.symm hi]
      | ok =>
        cases hwait : o.waitO (push { nextId := s.nextId + 1, log := s.log ++ [SEv.openS s.nextId] }
            (SEv.load p)) p with
        | timeout =>
          simp only [quitDrv]
          constructor
          · simp only [push_log, sessionTrace_push, h1, scopedStep_open, scopedStep_load,
              scopedStep_quit_self]
          · intro i
            simp only [push_log, count_push, h2 i]
            by_cases hi : i = s.nextId
            · subst hi
              simp
            · simp [hi, Ne.symm hi]
        | raise =>
          simp only [quitDrv]
          by_cases hf : 0 < fuel
          · rw [if_pos hf]
            refine ih _ ?_ ?_
            · simp only [push_log, sessionTrace_push, h1, scopedStep_open, scopedStep_load,
                scopedStep_quit_self, scopedStep_sleep]
            · intro i
              simp only [push_log, count_push, h2 i]
              by_cases hi : i = s.nextId
              · subst hi
                simp
              · simp [hi, Ne.symm hi]
          · rw [if_neg hf]
            constructor
            · simp only [push_log, sessionTrace_push, h1, scopedStep_open, scopedStep_load,
                scopedStep_quit_self]
            · intro i
              simp only [push_log, count_push, h2 i]
              by_cases hi : i = s.nextId
              · subst hi
                simp
              · simp [hi, Ne.symm hi]
        | items recs =>
          simp only [quitDrv]
          constructor
          · simp only [push_log, sessionTrace_push, h1, scopedStep_open, scopedStep_load,
              scopedStep_quit_self]
          · intro i
            simp only [push_log, count_push, h2 i]
            by_cases hi : i = s.nextId
            · subst hi
              simp
            · simp [hi, Ne.symm hi]
    | failLeak =>
      simp only [scrape_page_go, setup_driver, hset, quitDrv]
      by_cases hf : 0 < fuel
      · rw [if_pos hf]
        refine ih _ ?_ ?_
        · simp only [push_log, sessionTrace_push, h1, scopedStep_open,
            scopedStep_quit_self, scopedStep_sleep]
        · intro i
          simp only [push_log, count_push, h2 i]
          by_cases hi : i = s.nextId
          · subst hi
            simp
          · simp [hi, Ne.symm hi]
      · rw [if_neg hf]
        constructor
        · simp only [push_log, sessionTrace_push, h1, scopedStep_open, scopedStep_quit_self]
        · intro i
          simp only [push_log, count_push, h2 i]
          by_cases hi : i = s.nextId
          · subst hi
            simp
          · simp [hi, Ne.symm hi]

/-- Session invariant of the retry loop entered with the constructor's
driver open: the attempt that owns session `d` quits it on every one of its
exit paths, and every later attempt opens and quits its own fresh session. -/
theorem scrape_page_go_inv_some (o : Oracle) (p : Nat) (fuel : Nat) (d : Nat) (s : SState)
    (h1 : sessionTrace s.log = some (some d))
    (h2 : ∀ i, s.log.count (SEv.openS i)
        = s.log.count (SEv.quitS i) + (if i = d then 1 else 0)) :
    sessionTrace (scrape_page_go o p (fuel + 1) (some d) s).2.log = some none
    ∧ ∀ i, (scrape_page_go o p (fuel + 1) (some d) s).2.log.count (SEv.openS i)
        = (scrape_page_go o p (fuel + 1) (some d) s).2.log.count (SEv.quitS i) := by
  simp only [scrape_page_go]
  cases hnav : o.navO (push s (SEv.load p)) p with
  | raise =>
    simp only [quitDrv]
    by_cases hf : 0 < fuel
    · rw [if_pos hf]
      refine scrape_page_go_inv_none o p fuel _ ?_ ?_
      · simp only [push_log, sessionTrace_push, h1, scopedStep_load,
          scopedStep_quit_self, scopedStep_sleep]
      · intro i
        simp only [push_log, count_push, h2 i]
        by_cases hi : i = d
        · subst hi
          simp
        · simp [hi, Ne.symm hi]
    · rw [if_neg hf]
      constructor
      · simp only [push_log, sessionTrace_push, h1, scopedStep_load, scopedStep_quit_self]
      · intro i
        simp only [push_log, count_push, h2 i]
        by_cases hi : i = d
        · subst hi
          simp
        · simp [hi, Ne.symm hi]
  | ok =>
    cases hwait : o.waitO (push s (SEv.load p)) p with
    | timeout =>
      simp only [quitDrv]
      constructor
      · simp only [push_log, sessionTrace_push, h1, scopedStep_load, scopedStep_quit_self]
      · intro i
        simp only [push_log, count_push, h2 i]
        by_cases hi : i = d
        · subst hi
          simp
        · simp [hi, Ne.symm hi]
    | raise =>
      simp only [quitDrv]
      by_cases hf : 0 < fuel
      · rw [if_pos hf]
        refine scrape_page_go_inv_none o p fuel _ ?_ ?_
        · simp only [push_log, sessionTrace_push, h1, scopedStep_load,
            scopedStep_quit_self, scopedStep_sleep]
        · intro i
          simp only [push_log, count_push, h2 i]
          by_cases hi : i = d
          · subst hi
            simp
          · simp [hi, Ne.symm hi]
      · rw [if_neg hf]
        constructor
        · simp only [push_log, sessionTrace_push, h1, scopedStep_load, scopedStep_quit_self]
        · intro i
          simp only [push_log, count_push, h2 i]
          by_cases hi : i = d
          · subst hi
            simp
          · simp [hi, Ne.symm hi]
    | items recs =>
      simp only [quitDrv]
      constructor
      · simp only [push_log, sessionTrace_push, h1, scopedStep_load, scopedStep_quit_self]
      · intro i
        simp only [push_log, count_push, h2 i]
        by_cases hi : i = d
        · subst hi
          simp
        · simp [hi, Ne.symm hi]

/-- C5 (amended): provided `setup_driver` never fails after the driver has
been created (no post-creation stealth-command failure), a complete Page
Fetch Job execution — constructor plus `scrape_page` — produces a properly
scoped session trace: every browser session that is opened is closed exactly
once, within the attempt that opened it and before any later session opens
(so no session from a prior attempt is reused), and at job completion the
per-session open and quit counts are equal. -/
theorem c5_amended (o : Oracle) (p n0 : Nat)
    (hleak : o.setupO { nextId := n0, log := [] } ≠ SetupRes.failLeak) :
    scopedSessions (scrape_single_page o p { nextId := n0, log := [] }).2.log = true
    ∧ ∀ i, (scrape_single_page o p { nextId := n0, log := [] }).2.log.count (SEv.openS i)
        = (scrape_single_page o p { nextId := n0, log := [] }).2.log.count (SEv.quitS i) := by
  cases hset : o.setupO { nextId := n0, log := [] } with
  | failLeak => exact absurd hset hleak
  | failNoOpen =>
    simp only [scrape_single_page, setup_driver, hset]
    exact ⟨rfl, fun i => rfl⟩
  | ok =>
    simp only [scrape_single_page, setup_driver, hset, scrape_page]
    have h1 : sessionTrace ([] ++ [SEv.openS n0]) = some (some n0) := by
      rw [sessionTrace_push]
      rfl
    have h2 : ∀ i, ([] ++ [SEv.openS n0] : List SEv).count (SEv.openS i)
        = ([] ++ [SEv.openS n0] : List SEv).count (SEv.quitS i)
          + (if i = n0 then 1 else 0) := by
      intro i
      simp only [count_push]
      by_cases hi : i = n0
      · subst hi
        simp
      · simp [hi, Ne.symm hi]
    obtain ⟨ht, hc⟩ := scrape_page_go_inv_some o p 2 n0
      { nextId := n0 + 1, log := [] ++ [SEv.openS n0] } h1 h2
    refine ⟨?_, hc⟩
    rw [scopedSessions, ht]
    rfl

/-- Witness for C5 (amended): in the all-success environment the job's
session trace is properly scoped with equal open/quit counts. -/
theorem c5_witness :
    scopedSessions (scrape_single_page okOracle 1 { nextId := 0, log := [] }).2.log = true
    ∧ ∀ i, (scrape_single_page okOracle 1 { nextId := 0, log := [] }).2.log.count (SEv.openS i)
        = (scrape_single_page okOracle 1 { nextId := 0, log := [] }).2.log.count (SEv.quitS i) :=
  c5_amended okOracle 1 0 (fun h => SetupRes.noConfusion h)

/-- Attempt bounds of the retry loop: with `fuel` remaining attempts it
performs at most `fuel - 1` inter-attempt retry sleeps and at most `fuel`
page loads. -/
theorem scrape_page_go_counts_le (o : Oracle) (p : Nat) :
    ∀ (fuel : Nat) (drv : Option Nat) (s : SState),
      (scrape_page_go o p fuel drv s).2.log.count SEv.sleepRetry
        ≤ s.log.count SEv.sleepRetry + (fuel - 1)
      ∧ (scrape_page_go o p fuel drv s).2.log.count (SEv.load p)
        ≤ s.log.count (SEv.load p) + fuel := by
  intro fuel
  induction fuel with
  | zero => intro drv s; exact ⟨Nat.le_add_right _ _, Nat.le_add_right _ _⟩
  | succ fuel ih =>
    intro drv s
    have step : ∀ (s3 : SState),
        s3.log.count SEv.sleepRetry ≤ s.log.count SEv.sleepRetry →
        s3.log.count (SEv.load p) ≤ s.log.count (SEv.load p) + 1 →
        0 < fuel →
        (scrape_page_go o p fuel none (push s3 SEv.sleepRetry)).2.log.count SEv.sleepRetry
          ≤ s.log.count SEv.sleepRetry + (fuel + 1 - 1)
        ∧ (scrape_page_go o p fuel none (push s3 SEv.sleepRetry)).2.log.count (SEv.load p)
          ≤ s.log.count (SEv.load p) + (fuel + 1) := by
      intro s3 hs3s hs3l hf
      obtain ⟨ihs, ihl⟩ := ih none (push s3 SEv.sleepRetry)
      constructor
      · refine ihs.trans ?_
        simp only [push_log, count_push]
        simp
        omega
      · refine ihl.trans ?_
        simp only [push_log, count_push]
        simp
        omega
    cases drv with
    | some d =>
      simp only [scrape_page_go]
      cases hnav : o.navO (push s (SEv.load p)) p with
      | raise =>
        simp only [quitDrv]
        by_cases hf : 0 < fuel
        · rw [if_pos hf]
          refine step _ ?_ ?_ hf <;>
            simp [push_log, count_push]
        · rw [if_neg hf]
          constructor <;> simp [push_log, count_push]
      | ok =>
        cases hwait : o.waitO (push s (SEv.load p)) p with
        | timeout =>
          simp only [quitDrv]
          constructor <;> simp [push_log, count_push]
        | raise =>
          simp only [quitDrv]
          by_cases hf : 0 < fuel
          · rw [if_pos hf]
            refine step _ ?_ ?_ hf <;>
              simp [push_log, count_push]
          · rw [if_neg hf]
            constructor <;> simp [push_log, count_push]
        | items recs =>
          simp only [quitDrv]
          constructor <;> simp [push_log, count_push]
    | none =>
      cases hset : o.setupO s with
      | failNoOpen =>
        simp only [scrape_page_go, setup_driver, hset, quitDrv]
        by_cases hf : 0 < fuel
        · rw [if_pos hf]
          exact step s (Nat.le_refl _) (Nat.le_add_right _ _) hf
        · rw [if_neg hf]
          constructor
          · exact Nat.le_add_right _ _
          · exact Nat.le_add_right _ _
      | ok =>
        simp only [scrape_page_go, setup_driver, hset]
        cases hnav : o.navO (push { nextId := s.nextId + 1, log := s.log ++ [SEv.openS s.nextId] }
            (SEv.load p)) p with
        | raise =>
          simp only [quitDrv]
          by_cases hf : 0 < fuel
          · rw [if_pos hf]
            refine step _ ?_ ?_ hf <;>
              simp [push_log, count_push]
          · rw [if_neg hf]
            constructor <;> simp [push_log, count_push]
        | ok =>
          cases hwait : o.waitO
              (push { nextId := s.nextId + 1, log := s.log ++ [SEv.openS s.nextId] }
                (SEv.load p)) p with
          | timeout =>
            simp only [quitDrv]
            constructor <;> simp [push_log, count_push]
          | raise =>
            simp only [quitDrv]
            by_cases hf : 0 < fuel
            · rw [if_pos hf]
              refine step _ ?_ ?_ hf <;>
                simp [push_log, count_push]
            · rw [if_neg hf]
              constructor <;> simp [push_log, count_push]
          | items recs =>
            simp only [quitDrv]
            constructor <;> simp [push_log, count_push]
      | failLeak =>
        simp only [scrape_page_go, setup_driver, hset, quitDrv]
        by_cases hf : 0 < fuel
        · rw [if_pos hf]
          refine step _ ?_ ?_ hf <;>
            simp [push_log, count_push]
        · rw [if_neg hf]
          constructor <;> simp [push_log, count_push]

/-- When every navigation attempt raises, the retry loop always returns the
empty record list (exhausted attempt budget). -/
theorem scrape_page_go_navfail (o : Oracle) (p : Nat)
    (hnav : ∀ t, o.navO t p = NavRes.raise) :
    ∀ (fuel : Nat) (drv : Option Nat) (s : SState),
      (scrape_page_go o p fuel drv s).1 = [] := by
  intro fuel
  induction fuel with
  | zero => intro drv s; rfl
  | succ fuel ih =>
    intro drv s
    cases drv with
    | some d =>
      simp only [scrape_page_go, hnav, quitDrv]
      by_cases hf : 0 < fuel
      · rw [if_pos hf]
        exact ih none _
      · rw [if_neg hf]
    | none =>
      cases hset : o.setupO s with
      | failNoOpen =>
        simp only [scrape_page_go, setup_driver, hset, quitDrv]
        by_cases hf : 0 < fuel
        · rw [if_pos hf]
          exact ih none _
        · rw [if_neg hf]
      | ok =>
        simp only [scrape_page_go, setup_driver, hset, hnav, quitDrv]
        by_cases hf : 0 < fuel
        · rw [if_pos hf]
          exact ih none _
        · rw [if_neg hf]
      | failLeak =>
        simp only [scrape_page_go, setup_driver, hset, quitDrv]
        by_cases hf : 0 < fuel
        · rw [if_pos hf]
          exact ih none _
        · rw [if_neg hf]

/-- C6 (amended): whenever the constructor's driver setup succeeds, the Page
Fetch Job never raises to the orchestrator — `scrape_page` absorbs every
in-attempt error in its 3-attempt retry loop — the job performs at most 2
randomized 2-5 second inter-attempt sleeps and at most 3 page loads, and a
job whose every navigation raises (exhausting its attempt budget) returns
the empty record list rather than an exception. -/
theorem c6_amended (o : Oracle) (p n0 : Nat)
    (h : o.setupO { nextId := n0, log := [] } = SetupRes.ok) :
    (scrape_single_page o p { nextId := n0, log := [] }).1 ≠ Except.error ()
    ∧ (scrape_single_page o p { nextId := n0, log := [] }).2.log.count SEv.sleepRetry ≤ 2
    ∧ (scrape_single_page o p { nextId := n0, log := [] }).2.log.count (SEv.load p) ≤ 3
    ∧ ((∀ t, o.navO t p = NavRes.raise) →
        (scrape_single_page o p { nextId := n0, log := [] }).1 = Except.ok []) := by
  simp only [scrape_single_page, setup_driver, h, scrape_page]
  refine ⟨by simp, ?_, ?_, ?_⟩
  · have := (scrape_page_go_counts_le o p 3 (some n0)
      { nextId := n0 + 1, log := [] ++ [SEv.openS n0] }).1
    refine this.trans ?_
    simp [count_push]
  · have := (scrape_page_go_counts_le o p 3 (some n0)
      { nextId := n0 + 1, log := [] ++ [SEv.openS n0] }).2
    refine this.trans ?_
    simp [count_push]
  · intro hnav
    rw [scrape_page_go_navfail o p hnav 3 (some n0) _]

/-- Witness for C6 (amended): in the all-success environment the job returns
normally with the attempt bounds satisfied. -/
theorem c6_witness :
    (scrape_single_page okOracle 1 { nextId := 0, log := [] }).1 ≠ Except.error ()
    ∧ (scrape_single_page okOracle 1 { nextId := 0, log := [] }).2.log.count SEv.sleepRetry ≤ 2
    ∧ (scrape_single_page okOracle 1 { nextId := 0, log := [] }).2.log.count (SEv.load 1) ≤ 3
    ∧ ((∀ t, okOracle.navO t 1 = NavRes.raise) →
        (scrape_single_page okOracle 1 { nextId := 0, log := [] }).1 = Except.ok []) :=
  c6_amended okOracle 1 0 rfl

end AuctionScraper
